import Mathlib

/-!
# Verification of the ads.txt crawler's redirect policy and response handling

A shallow embedding of `crawler.go` from the `go-adstxt-crawler` repository:
the redirect validation (`handleRedirect`), response-body validation
(`readBody`) and `Expires`-header parsing (`parseExpires`), together with the
pieces of the fetch sequence that `crawler.go` plugs into.

External collaborators that the crawler calls but does not define —
`rootDomain` (registrable-domain resolution), Go's `url.ParseRequestURI`,
`url.Parse` and `http.ParseTime` — are abstracted as function parameters,
bundled in the `Net` structure, so every theorem quantifies over their
behaviour.  The one piece of Go standard-library code that `handleRedirect`'s
homepage check depends on in an essential, string-level way —
`url.URL.Hostname()`, i.e. stripping an optional port from the host — is
embedded directly from `net/url`'s `splitHostPort`.
-/

set_option autoImplicit false

namespace AdsTxt

/-- An ads.txt fetch request: the URL currently being fetched (mutated on each
redirect hop by the fetch loop) and the immutable root domain of the original
host, computed once at construction. -/
structure Request where
  URL : String
  Domain : String
  deriving DecidableEq, Repr

/-- The result of Go's `url.Parse` that `handleRedirect` inspects: the
`Scheme` and `Host` fields of the parsed URL. -/
structure GoURL where
  scheme : String
  host : String
  deriving DecidableEq, Repr

/-- `validOptionalPort` from Go's `net/url`: an empty string, or a `:`
followed by decimal digits only. -/
def validOptionalPort : List Char → Bool
  | [] => true
  | c :: rest => c = ':' && rest.all fun b => '0' ≤ b && b ≤ '9'

/-- The last index of `:` in a list of characters, if any
(Go's `strings.LastIndexByte(host, ':')`). -/
def lastColonIdx (l : List Char) : Option Nat :=
  match l with
  | [] => none
  | c :: rest =>
    match lastColonIdx rest with
    | some n => some (n + 1)
    | none => if c = ':' then some 0 else none

/-- The host part of `splitHostPort` from Go's `net/url`: strip a valid
optional `:port` suffix, then strip enclosing IPv6 brackets. -/
def splitHostPortHost (hostPort : String) : String :=
  let hp := hostPort.data
  let host :=
    match lastColonIdx hp with
    | some colon => if validOptionalPort (hp.drop colon) then hp.take colon else hp
    | none => hp
  let host :=
    if host.head? = some '[' && host.getLast? = some ']' then
      (host.drop 1).dropLast
    else host
  String.mk host

/-- `u.Hostname()` from Go's `net/url`: the `Host` field with any optional
port (and IPv6 brackets) removed. -/
def GoURL.hostname (u : GoURL) : String :=
  splitHostPortHost u.host

/-- Go's `strings.HasSuffix`. -/
def goHasSuffix (s suffix : String) : Bool :=
  suffix.data.isSuffixOf s.data

/-- The external functions `crawler.go` calls around `handleRedirect` and
`readBody`, abstracted:

* `rootDomain` — the repository's registrable-domain resolver (defined
  outside `crawler.go`); mirrors Go's two-value return `(string, error)`,
  the second component being `some errMsg` on failure;
* `parseRequestURI` — success of Go's `url.ParseRequestURI` (`true` iff the
  call returned a nil error);
* `parse` — Go's `url.Parse`: `none` on error, otherwise the `Scheme` and
  `Host` fields of the result;
* `parseTime` — Go's `http.ParseTime`; time instants are abstracted as
  `Nat`, a failure carries the error message. -/
structure Net where
  rootDomain : String → String × Option String
  parseRequestURI : String → Bool
  parse : String → Option GoURL
  parseTime : String → Except String Nat

/-- The redirect rejection reasons of `crawler.go`, each carrying the format
arguments of the corresponding `fmt.Errorf`. -/
inductive RedirectErr where
  /-- `errRedirectSameDomain`: redirecting to the same page. -/
  | sameDomain (domain url redirect : String)
  /-- `errFailToParseRedirect`: `rootDomain` failed on the redirect target. -/
  | failToParse (domain url redirect msg : String)
  /-- `errRedirectToDifferentDomain`: a second redirect out of the original
  root domain scope. -/
  | differentDomain (domain prev d : String)
  /-- `errRedirctToInvalidAdsTxt`: the target is not a valid ads.txt URL. -/
  | invalidAdsTxt (domain url redirect : String)
  /-- `errRedirctToMainPage`: the target looks like a homepage. -/
  | mainPage (domain url redirect : String)
  deriving DecidableEq, Repr

/-- Lines 131–149 of `crawler.go` (`handleRedirect`'s tail): make sure the
redirect takes us to another ads.txt file and not just to a home page.
A target ending in `/ads.txt` is returned as-is; otherwise it must survive
`url.ParseRequestURI`, parse with nonempty scheme and host, and not be the
bare string `scheme + "://" + hostname`. -/
def checkTarget (net : Net) (req : Request) (redirect : String) :
    Except RedirectErr String :=
  if !goHasSuffix redirect "/ads.txt" then
    if !net.parseRequestURI redirect then
      .error (.invalidAdsTxt req.Domain req.URL redirect)
    else
      match net.parse redirect with
      | none => .error (.invalidAdsTxt req.Domain req.URL redirect)
      | some u =>
        if u.scheme = "" ∨ u.host = "" then
          .error (.invalidAdsTxt req.Domain req.URL redirect)
        else if u.scheme ++ "://" ++ u.hostname = redirect then
          .error (.mainPage req.Domain req.URL redirect)
        else
          .ok redirect
  else
    .ok redirect

/-- `handleRedirect` from `crawler.go` (lines 88–150): given the request's
current state and the `Location` header value, decide whether the redirect
may be followed.  In order: reject a redirect to the same location; resolve
the target's root domain (rejecting on resolution failure); if the target's
root domain differs from the request's original `Domain`, reject when the
current URL's root domain already differs from `Domain` and also differs
from the target's; finally apply the ads.txt-target checks of
`checkTarget`. -/
def handleRedirect (net : Net) (req : Request) (location : String) :
    Except RedirectErr String :=
  let redirect := location
  if redirect = req.URL then
    .error (.sameDomain req.Domain req.URL redirect)
  else
    match net.rootDomain redirect with
    | (_, some e) => .error (.failToParse req.Domain req.URL redirect e)
    | (d, none) =>
      if d ≠ req.Domain then
        let prevDomain := (net.rootDomain req.URL).1
        if prevDomain ≠ req.Domain ∧ prevDomain ≠ d then
          .error (.differentDomain req.Domain prevDomain d)
        else
          checkTarget net req redirect
      else
        checkTarget net req redirect

/-- Go's `strings.Index` on character lists: the index of the first
occurrence of `sub` in `s`, or `none` when `sub` does not occur. -/
def indexOfList (sub : List Char) : List Char → Option Nat
  | [] => if sub.isPrefixOf [] then some 0 else none
  | c :: tl =>
    if sub.isPrefixOf (c :: tl) then some 0
    else (indexOfList sub tl).map (· + 1)

/-- Go's `strings.Index s sub`: the index of the first occurrence of `sub`
in `s`, or `-1` when `sub` does not occur. -/
def goIndex (s sub : String) : Int :=
  match indexOfList sub.data s.data with
  | some n => (n : Int)
  | none => -1

/-- The fatal errors a fetch sequence can end with, as far as `crawler.go`
produces them. -/
inductive CrawlErr where
  /-- A redirect rejected by `handleRedirect`. -/
  | redirect (e : RedirectErr)
  /-- A non-redirect, non-2xx HTTP status. -/
  | httpStatus (domain url : String) (status : Nat)
  /-- `errHTTPBadContentType`: the Content-Type does not begin with
  `text/plain`. -/
  | badContentType (url contentType : String)
  /-- `ioutil.ReadAll` failed on the response body. -/
  | readFail (msg : String)
  deriving DecidableEq, Repr

/-- `readBody` from `crawler.go` (lines 153–168).  `contentType` is
`res.Header.Get("Content-Type")` — the empty string when the header is
absent; `bodyRead` is the outcome of `ioutil.ReadAll(res.Body)`, passed as a
value so theorems can quantify over it (the code only reaches it after the
content-type check). -/
def readBody (req : Request) (contentType : String)
    (bodyRead : Except String (List UInt8)) : Except CrawlErr (List UInt8) :=
  if goIndex contentType "text/plain" ≠ 0 then
    .error (.badContentType req.URL contentType)
  else
    match bodyRead with
    | .error e => .error (.readFail e)
    | .ok body => .ok body

/-- `parseExpires` from `crawler.go` (lines 171–184): fail when the
`Expires` header is empty/absent, otherwise delegate to `http.ParseTime`
and propagate its error. -/
def parseExpires (net : Net) (expires : String) : Except String Nat :=
  if expires.length = 0 then
    .error "Failed to parse expires from response header"
  else
    net.parseTime expires

/-- The data of a successful fetch, as the spec's §3 `Response` describes
it (the `Response` type itself is declared outside `crawler.go`):
`expires` is `none` when the `Expires` header was missing or unparsable. -/
structure Response where
  finalURL : String
  statusCode : Nat
  contentType : String
  body : List UInt8
  expires : Option Nat
  deriving DecidableEq, Repr

/-- Modelled from the spec: steps 4–8 of the FetchSequence algorithm
(§4.2) — the driver that dispatches on the final response's status and
assembles the `Response` lives outside the embedded sources (in
`adstxt.go`), so it is modelled here from the spec's words.  A non-redirect,
non-2xx status is an HTTP-status error; on 2xx the body is validated and
read by `readBody` (from the source), then `parseExpires` (from the source)
is attempted, its failure leaving only `expires` unset and never failing the
fetch. -/
def finalize (net : Net) (req : Request) (status : Nat) (contentType : String)
    (bodyRead : Except String (List UInt8)) (expiresHeader : String) :
    Except CrawlErr Response :=
  if status < 200 ∨ 300 ≤ status then
    .error (.httpStatus req.Domain req.URL status)
  else
    match readBody req contentType bodyRead with
    | .error e => .error e
    | .ok body =>
      let expires :=
        match parseExpires net expiresHeader with
        | .ok t => some t
        | .error _ => none
      .ok { finalURL := req.URL, statusCode := status,
            contentType := contentType, body := body, expires := expires }

/-- Modelled from the spec: the redirect loop of the FetchSequence (§4.2
steps 2–3) — the driver (`getAdsTxt` in `adstxt.go`) is not among the
embedded sources.  `locations` gives each URL's `Location` response header,
`none` meaning the response was not a redirect; every accepted hop is
appended to the visited trace and becomes the request's current URL.  `fuel`
bounds the recursion because the source's redirect cap is commented out, so
the loop itself has no bound.  Returns the visited trace together with the
redirect error that terminated the loop, if any. -/
def runSequence (net : Net) (locations : String → Option String) :
    Nat → Request → List String → List String × Option RedirectErr
  | 0, _, visited => (visited, none)
  | fuel + 1, req, visited =>
    match locations req.URL with
    | none => (visited, none)
    | some loc =>
      match handleRedirect net req loc with
      | .error e => (visited, some e)
      | .ok redirect =>
        runSequence net locations fuel { req with URL := redirect }
          (visited ++ [redirect])

/-! ## Concrete instantiations used to evaluate the theorems -/

/-- A resolver environment knowing the ads.txt URLs of `a.com`, `b.com` and
`c.com`, with URL parsing failing everywhere. -/
def netABC : Net where
  rootDomain := fun u =>
    if u = "http://a.com/ads.txt" then ("a.com", none)
    else if u = "http://b.com/ads.txt" then ("b.com", none)
    else if u = "http://c.com/ads.txt" then ("c.com", none)
    else ("", some "err")
  parseRequestURI := fun _ => true
  parse := fun _ => none
  parseTime := fun _ => .error "not a time"

/-- An environment whose resolver knows `http://x.com` as a parseable
homepage URL and resolves every URL to root domain `x.com`. -/
def netHome : Net where
  rootDomain := fun _ => ("x.com", none)
  parseRequestURI := fun u => u ≠ "no scheme"
  parse := fun u =>
    if u = "http://x.com" then some ⟨"http", "x.com"⟩
    else if u = "http://x.com/page" then some ⟨"http", "x.com"⟩
    else none
  parseTime := fun _ => .error "not a time"

def netA : Net where
  rootDomain := fun u =>
    if u = "http://a.com/ads.txt" then ("a.com", none)
    else if u = "http://b.com/ads.txt" then ("b.com", none)
    else ("", some "err")
  parseRequestURI := fun _ => true
  parse := fun _ => none
  parseTime := fun _ => .error "not a time"

def locsCycle : String → Option String := fun u =>
  if u = "http://x.com/ads.txt" then some "http://x.com/sub/ads.txt"
  else if u = "http://x.com/sub/ads.txt" then some "http://x.com/ads.txt"
  else none

def netX : Net where
  rootDomain := fun _ => ("x.com", none)
  parseRequestURI := fun _ => true
  parse := fun _ => none
  parseTime := fun _ => .error "not a time"

/-- A redirect map sending `x.com`'s ads.txt to a second path and back:
the two-URL cycle A→B→A→B. -/
def locsSelf : String → Option String := fun u =>
  if u = "http://x.com/ads.txt" then some "http://x.com/ads.txt" else none

/-! ## General lemmas about `handleRedirect` -/

/-- The same-location check is the first check of `handleRedirect`: a
`Location` equal to the current URL yields `errRedirectSameDomain` before
anything else runs. -/
theorem handleRedirect_self (net : Net) (req : Request) (location : String)
    (h : location = req.URL) :
    handleRedirect net req location =
      .error (.sameDomain req.Domain req.URL location) := by
  simp [handleRedirect, h]

/-- `checkTarget` never produces the cross-domain rejection: its only
errors are `invalidAdsTxt` and `mainPage`. -/
theorem checkTarget_ne_differentDomain (net : Net) (req : Request)
    (r a b c : String) :
    checkTarget net req r ≠ .error (.differentDomain a b c) := by
  unfold checkTarget
  split
  · split
    · simp
    · split
      · simp
      · split
        · simp
        · split
          · simp
          · simp
  · simp

/-- When the loop check and the domain-scope check both pass,
`handleRedirect` reduces to the ads.txt-target checks of `checkTarget`. -/
theorem handleRedirect_eq_checkTarget (net : Net) (req : Request)
    (location d : String)
    (hloop : location ≠ req.URL)
    (hd : net.rootDomain location = (d, none))
    (hscope : d = req.Domain ∨ (net.rootDomain req.URL).1 = req.Domain ∨
      (net.rootDomain req.URL).1 = d) :
    handleRedirect net req location = checkTarget net req location := by
  simp only [handleRedirect, hd, if_neg hloop]
  by_cases hdd : d = req.Domain
  · simp [hdd]
  · rw [if_pos hdd]
    rcases hscope with h | h | h
    · exact absurd h hdd
    · rw [if_neg (by simp [h])]
    · rw [if_neg (by simp [h])]

/-- When the target's root domain differs from the original `Domain` and the
current URL's root domain differs from both, `handleRedirect` rejects with
`errRedirectToDifferentDomain`. -/
theorem handleRedirect_reject (net : Net) (req : Request)
    (location d prev : String)
    (hloop : location ≠ req.URL)
    (hd : net.rootDomain location = (d, none))
    (hdiff : d ≠ req.Domain)
    (hprev : (net.rootDomain req.URL).1 = prev)
    (h1 : prev ≠ req.Domain) (h2 : prev ≠ d) :
    handleRedirect net req location =
      .error (.differentDomain req.Domain prev d) := by
  simp only [handleRedirect, hd, if_neg hloop, hprev]
  rw [if_pos hdiff, if_pos ⟨h1, h2⟩]

/-! ## The claims -/

/-- C1: for a redirect evaluation whose candidate target's root domain `d`
differs from the original request `Domain`, the redirect is rejected as
cross-domain-exhausted if and only if the root domain of the URL being
redirected from already differs from `Domain` and `d` also differs from that
previous root domain; in every other case the scope check passes and
evaluation proceeds to the ads.txt-target checks. -/
theorem crossDomain_reject_iff (net : Net) (req : Request)
    (location d prev : String)
    (hloop : location ≠ req.URL)
    (hd : net.rootDomain location = (d, none))
    (hdiff : d ≠ req.Domain)
    (hprev : net.rootDomain req.URL = (prev, none)) :
    (handleRedirect net req location =
        .error (.differentDomain req.Domain prev d) ↔
      (prev ≠ req.Domain ∧ prev ≠ d)) ∧
    (¬(prev ≠ req.Domain ∧ prev ≠ d) →
      handleRedirect net req location = checkTarget net req location) := by
  have hprev1 : (net.rootDomain req.URL).1 = prev := by rw [hprev]
  have hpass : ¬(prev ≠ req.Domain ∧ prev ≠ d) →
      handleRedirect net req location = checkTarget net req location := by
    intro hcond
    refine handleRedirect_eq_checkTarget net req location d hloop hd ?_
    by_cases h1 : prev = req.Domain
    · exact Or.inr (Or.inl (hprev1.trans h1))
    · push_neg at hcond
      exact Or.inr (Or.inr (hprev1.trans (hcond h1)))
  refine ⟨⟨fun hres => ?_, fun hcond => ?_⟩, hpass⟩
  · by_contra hcond
    rw [hpass hcond] at hres
    exact checkTarget_ne_differentDomain net req location _ _ _ hres
  · exact handleRedirect_reject net req location d prev hloop hd hdiff hprev1
      hcond.1 hcond.2

/-- Witness for C1 at a concrete second cross-domain hop
(`a.com` → `b.com` → `c.com`). -/
theorem crossDomain_reject_iff_witness :
    (handleRedirect netABC ⟨"http://b.com/ads.txt", "a.com"⟩
        "http://c.com/ads.txt" =
        .error (.differentDomain "a.com" "b.com" "c.com") ↔
      (("b.com" : String) ≠ "a.com" ∧ ("b.com" : String) ≠ "c.com")) ∧
    (¬(("b.com" : String) ≠ "a.com" ∧ ("b.com" : String) ≠ "c.com") →
      handleRedirect netABC ⟨"http://b.com/ads.txt", "a.com"⟩
        "http://c.com/ads.txt" =
        checkTarget netABC ⟨"http://b.com/ads.txt", "a.com"⟩
          "http://c.com/ads.txt") :=
  crossDomain_reject_iff netABC ⟨"http://b.com/ads.txt", "a.com"⟩
    "http://c.com/ads.txt" "c.com" "b.com" (by decide) (by rfl) (by decide)
    (by rfl)

/-- C3: a `Location` value string-identical to the request's current URL is
always rejected as a self-redirect loop, whatever the domains and parser
behaviour. -/
theorem selfRedirect_always_rejected (net : Net) (req : Request)
    (location : String) (h : location = req.URL) :
    handleRedirect net req location =
      .error (.sameDomain req.Domain req.URL location) :=
  handleRedirect_self net req location h

/-- Witness for C3 at a concrete self-redirect. -/
theorem selfRedirect_always_rejected_witness :
    handleRedirect netA ⟨"http://a.com/ads.txt", "a.com"⟩
      "http://a.com/ads.txt" =
      .error (.sameDomain "a.com" "http://a.com/ads.txt"
        "http://a.com/ads.txt") :=
  selfRedirect_always_rejected netA ⟨"http://a.com/ads.txt", "a.com"⟩
    "http://a.com/ads.txt" rfl

/-- C9: the self-redirect loop check precedes every other redirect check:
when the `Location` equals the current URL the loop error is returned, and
the result does not depend on the resolver or parser at all — so it is the
same even when root-domain resolution, the scope rule, URL parsing or the
homepage check would also fail. -/
theorem loop_check_precedence (net net' : Net) (req : Request)
    (location : String) (h : location = req.URL) :
    handleRedirect net req location =
      .error (.sameDomain req.Domain req.URL location) ∧
    handleRedirect net req location = handleRedirect net' req location := by
  refine ⟨handleRedirect_self net req location h, ?_⟩
  rw [handleRedirect_self net req location h,
    handleRedirect_self net' req location h]

/-- Witness for C9: a self-redirect to a URL on which `netA`'s resolver
fails, which does not end in `/ads.txt`, and which `netA` cannot parse, is
still reported as a loop — identically under a resolver that succeeds. -/
theorem loop_check_precedence_witness :
    handleRedirect netA ⟨"http://x.com", "x.com"⟩ "http://x.com" =
      .error (.sameDomain "x.com" "http://x.com" "http://x.com") ∧
    handleRedirect netA ⟨"http://x.com", "x.com"⟩ "http://x.com" =
      handleRedirect netX ⟨"http://x.com", "x.com"⟩ "http://x.com" :=
  loop_check_precedence netA netX ⟨"http://x.com", "x.com"⟩ "http://x.com" rfl

/-- C7 counterexample: with the sequence already off-domain at `b.com`
(original `Domain` is `a.com`), a redirect back to `a.com`'s ads.txt URL —
whose root domain differs from the preceding hop's root domain — is
accepted, not rejected: the scope check is skipped entirely whenever the
target resolves to the original `Domain`. -/
theorem offDomain_bounceBack_allowed :
    netABC.rootDomain "http://b.com/ads.txt" = ("b.com", none) ∧
    ("b.com" : String) ≠ "a.com" ∧
    netABC.rootDomain "http://a.com/ads.txt" = ("a.com", none) ∧
    ("a.com" : String) ≠ "b.com" ∧
    handleRedirect netABC ⟨"http://b.com/ads.txt", "a.com"⟩
      "http://a.com/ads.txt" = .ok "http://a.com/ads.txt" :=
  ⟨rfl, by decide, rfl, by decide, rfl⟩

/-- C7 amended: once the sequence is off-domain, a further redirect is
rejected as cross-domain-exhausted iff its target's root domain differs from
both the original `Domain` and the preceding hop's root domain; in
particular a bounce-back whose target root domain equals the original
`Domain` (A→B→A) passes the scope check and proceeds to the
ads.txt-target checks. -/
theorem offDomain_scope (net : Net) (req : Request) (location d prev : String)
    (hloop : location ≠ req.URL)
    (hd : net.rootDomain location = (d, none))
    (hprev : net.rootDomain req.URL = (prev, none))
    (hoff : prev ≠ req.Domain) :
    (handleRedirect net req location =
        .error (.differentDomain req.Domain prev d) ↔
      (d ≠ req.Domain ∧ prev ≠ d)) ∧
    (d = req.Domain →
      handleRedirect net req location = checkTarget net req location) := by
  have hprev1 : (net.rootDomain req.URL).1 = prev := by rw [hprev]
  refine ⟨⟨fun hres => ?_, fun hcond => ?_⟩, fun hdd =>
    handleRedirect_eq_checkTarget net req location d hloop hd (Or.inl hdd)⟩
  · by_contra hcond
    push_neg at hcond
    have hscope : d = req.Domain ∨ (net.rootDomain req.URL).1 = req.Domain ∨
        (net.rootDomain req.URL).1 = d := by
      by_cases hdd : d = req.Domain
      · exact Or.inl hdd
      · exact Or.inr (Or.inr (hprev1.trans (hcond hdd)))
    rw [handleRedirect_eq_checkTarget net req location d hloop hd hscope]
      at hres
    exact checkTarget_ne_differentDomain net req location _ _ _ hres
  · exact handleRedirect_reject net req location d prev hloop hd hcond.1
      hprev1 hoff hcond.2

/-- Witness for the amended C7 at the concrete second cross-domain hop
`a.com` → `b.com` → `c.com`, where the scope condition holds. -/
theorem offDomain_scope_witness :
    (handleRedirect netABC ⟨"http://b.com/ads.txt", "a.com"⟩
        "http://c.com/ads.txt" =
        .error (.differentDomain "a.com" "b.com" "c.com") ↔
      (("c.com" : String) ≠ "a.com" ∧ ("b.com" : String) ≠ "c.com")) ∧
    (("c.com" : String) = "a.com" →
      handleRedirect netABC ⟨"http://b.com/ads.txt", "a.com"⟩
        "http://c.com/ads.txt" =
        checkTarget netABC ⟨"http://b.com/ads.txt", "a.com"⟩
          "http://c.com/ads.txt") :=
  offDomain_scope netABC ⟨"http://b.com/ads.txt", "a.com"⟩
    "http://c.com/ads.txt" "c.com" "b.com" (by decide) (by rfl) (by rfl)
    (by decide)

/-- C2 counterexample: a two-URL redirect cycle inside `x.com` is not
detected — after four hops the sequence has revisited
`http://x.com/ads.txt` and `http://x.com/sub/ads.txt`, every hop was
accepted, and no error terminates the loop. -/
theorem redirect_cycle_not_detected :
    runSequence netX locsCycle 4 ⟨"http://x.com/ads.txt", "x.com"⟩
        ["http://x.com/ads.txt"] =
      (["http://x.com/ads.txt", "http://x.com/sub/ads.txt",
        "http://x.com/ads.txt", "http://x.com/sub/ads.txt",
        "http://x.com/ads.txt"], none) := by rfl

/-- C2 amended: within one fetch sequence only an immediate self-redirect —
a `Location` equal to the request's current URL — is detected and terminates
the sequence with an error; a longer redirect cycle such as A→B→A→B is not
detected: each hop is accepted and the sequence revisits its URLs without
any error. -/
theorem sequence_loop_detection (net : Net)
    (locations : String → Option String) (req : Request)
    (visited : List String) (fuel : Nat) (loc : String)
    (hloc : locations req.URL = some loc) (hself : loc = req.URL) :
    runSequence net locations (fuel + 1) req visited =
      (visited, some (.sameDomain req.Domain req.URL loc)) ∧
    runSequence netX locsCycle 4 ⟨"http://x.com/ads.txt", "x.com"⟩
        ["http://x.com/ads.txt"] =
      (["http://x.com/ads.txt", "http://x.com/sub/ads.txt",
        "http://x.com/ads.txt", "http://x.com/sub/ads.txt",
        "http://x.com/ads.txt"], none) := by
  refine ⟨?_, by rfl⟩
  simp only [runSequence, hloc, handleRedirect_self net req loc hself]

/-- Witness for the amended C2 at a concrete self-redirect. -/
theorem sequence_loop_detection_witness :
    (runSequence netX locsSelf 1 ⟨"http://x.com/ads.txt", "x.com"⟩
        ["http://x.com/ads.txt"] =
      (["http://x.com/ads.txt"],
        some (.sameDomain "x.com" "http://x.com/ads.txt"
          "http://x.com/ads.txt"))) ∧
    runSequence netX locsCycle 4 ⟨"http://x.com/ads.txt", "x.com"⟩
        ["http://x.com/ads.txt"] =
      (["http://x.com/ads.txt", "http://x.com/sub/ads.txt",
        "http://x.com/ads.txt", "http://x.com/sub/ads.txt",
        "http://x.com/ads.txt"], none) :=
  sequence_loop_detection netX locsSelf ⟨"http://x.com/ads.txt", "x.com"⟩
    ["http://x.com/ads.txt"] 0 "http://x.com/ads.txt" rfl rfl

/-- C4: after the loop and domain-scope checks pass, a candidate that does
not end with `/ads.txt` is rejected as a homepage redirect when it parses as
an absolute URL that is exactly the bare string `scheme://hostname`, and is
rejected as an invalid target when `url.ParseRequestURI` fails, or
`url.Parse` fails, or the parse yields an empty scheme or host. -/
theorem non_adstxt_target_rejections (net : Net) (req : Request)
    (location d : String)
    (hloop : location ≠ req.URL)
    (hd : net.rootDomain location = (d, none))
    (hscope : d = req.Domain ∨ (net.rootDomain req.URL).1 = req.Domain ∨
      (net.rootDomain req.URL).1 = d)
    (hsuffix : goHasSuffix location "/ads.txt" = false) :
    (∀ u : GoURL, net.parseRequestURI location = true →
      net.parse location = some u → u.scheme ≠ "" → u.host ≠ "" →
      u.scheme ++ "://" ++ u.hostname = location →
      handleRedirect net req location =
        .error (.mainPage req.Domain req.URL location)) ∧
    ((net.parseRequestURI location = false ∨ net.parse location = none ∨
        ∃ u : GoURL, net.parse location = some u ∧
          (u.scheme = "" ∨ u.host = "")) →
      handleRedirect net req location =
        .error (.invalidAdsTxt req.Domain req.URL location)) := by
  rw [handleRedirect_eq_checkTarget net req location d hloop hd hscope]
  constructor
  · intro u hpru hparse hs hh hhome
    simp [checkTarget, hsuffix, hpru, hparse, hs, hh, hhome]
  · rintro (hbad | hbad | ⟨u, hparse, hbad⟩)
    · simp [checkTarget, hsuffix, hbad]
    · by_cases hpru : net.parseRequestURI location = true
      · simp [checkTarget, hsuffix, hpru, hbad]
      · have hf : net.parseRequestURI location = false := by
          cases h : net.parseRequestURI location
          · rfl
          · exact absurd h hpru
        simp [checkTarget, hsuffix, hf]
    · by_cases hpru : net.parseRequestURI location = true
      · simp [checkTarget, hsuffix, hpru, hparse, hbad]
      · have hf : net.parseRequestURI location = false := by
          cases h : net.parseRequestURI location
          · rfl
          · exact absurd h hpru
        simp [checkTarget, hsuffix, hf]

/-- Witness for C4: `http://x.com` (a bare homepage `netHome` can parse) is
rejected as a homepage redirect, and the unparsable string `no scheme` is
rejected as an invalid target. -/
theorem non_adstxt_target_rejections_witness :
    handleRedirect netHome ⟨"http://x.com/ads.txt", "x.com"⟩ "http://x.com" =
      .error (.mainPage "x.com" "http://x.com/ads.txt" "http://x.com") ∧
    handleRedirect netHome ⟨"http://x.com/ads.txt", "x.com"⟩ "no scheme" =
      .error (.invalidAdsTxt "x.com" "http://x.com/ads.txt" "no scheme") :=
  ⟨(non_adstxt_target_rejections netHome ⟨"http://x.com/ads.txt", "x.com"⟩
      "http://x.com" "x.com" (by decide) (by rfl) (Or.inl rfl)
      (by decide)).1 ⟨"http", "x.com"⟩ (by decide) (by rfl) (by decide)
      (by decide) (by decide),
   (non_adstxt_target_rejections netHome ⟨"http://x.com/ads.txt", "x.com"⟩
      "no scheme" "x.com" (by decide) (by rfl) (Or.inl rfl)
      (by decide)).2 (Or.inl (by decide))⟩

/-- C10: a candidate ending in `/ads.txt` that passes the loop and
domain-scope checks is allowed and returned unchanged, and this holds for
every behaviour of `parseRequestURI` and `parse` — no URL well-formedness
parsing and no homepage-shape check is applied to it. -/
theorem adstxt_target_allowed (net : Net) (req : Request)
    (location d : String)
    (hsuffix : goHasSuffix location "/ads.txt" = true)
    (hloop : location ≠ req.URL)
    (hd : net.rootDomain location = (d, none))
    (hscope : d = req.Domain ∨ (net.rootDomain req.URL).1 = req.Domain ∨
      (net.rootDomain req.URL).1 = d) :
    handleRedirect net req location = .ok location ∧
    ∀ pru p, handleRedirect
      { net with parseRequestURI := pru, parse := p } req location =
      .ok location := by
  have hok : ∀ n : Net, n.rootDomain = net.rootDomain →
      handleRedirect n req location = .ok location := by
    intro n hn
    rw [handleRedirect_eq_checkTarget n req location d hloop
      (by rw [hn]; exact hd) (by rw [hn]; exact hscope)]
    simp [checkTarget, hsuffix]
  exact ⟨hok net rfl, fun pru p => hok _ rfl⟩

/-- Witness for C10 at a first cross-domain hop whose target ends in
`/ads.txt`. -/
theorem adstxt_target_allowed_witness :
    handleRedirect netABC ⟨"http://a.com/ads.txt", "a.com"⟩
      "http://b.com/ads.txt" = .ok "http://b.com/ads.txt" :=
  (adstxt_target_allowed netABC ⟨"http://a.com/ads.txt", "a.com"⟩
    "http://b.com/ads.txt" "b.com" (by decide) (by decide) (by rfl)
    (Or.inr (Or.inl (by rfl)))).1

/-! ## Content-type and Expires handling -/

/-- `strings.Index` is `0` exactly when the needle is a prefix of the
haystack. -/
theorem indexOfList_eq_zero_iff (sub s : List Char) :
    indexOfList sub s = some 0 ↔ sub.isPrefixOf s = true := by
  cases s with
  | nil =>
    simp only [indexOfList]
    split
    · simp_all
    · simp_all
  | cons c tl =>
    simp only [indexOfList]
    split
    · simp_all
    · rename_i h
      constructor
      · intro hmap
        rcases Option.map_eq_some'.mp hmap with ⟨n, _, hn⟩
        exact absurd hn (Nat.succ_ne_zero n)
      · intro hp
        exact absurd hp h

/-- `goIndex s sub = 0` exactly when `sub` is a prefix of `s`. -/
theorem goIndex_eq_zero_iff (s sub : String) :
    goIndex s sub = 0 ↔ sub.data.isPrefixOf s.data = true := by
  rw [← indexOfList_eq_zero_iff]
  unfold goIndex
  cases h : indexOfList sub.data s.data with
  | none => simp [h]
  | some n => simp [h, Nat.cast_eq_zero]

/-- C5: a `Content-Type` value that does not begin with `text/plain` (the
absent header arriving as the empty string) makes `readBody` return
`errHTTPBadContentType` whatever the body read would produce, and on every
2xx status the fetch finalization fails the same way — the body is never
consulted. -/
theorem bad_content_type_rejected (net : Net) (req : Request)
    (contentType : String)
    (h : "text/plain".data.isPrefixOf contentType.data = false) :
    (∀ bodyRead, readBody req contentType bodyRead =
      .error (.badContentType req.URL contentType)) ∧
    (∀ status, 200 ≤ status → status < 300 → ∀ bodyRead expiresHeader,
      finalize net req status contentType bodyRead expiresHeader =
        .error (.badContentType req.URL contentType)) := by
  have hidx : goIndex contentType "text/plain" ≠ 0 := by
    rw [Ne, goIndex_eq_zero_iff, h]
    simp
  have hrb : ∀ bodyRead, readBody req contentType bodyRead =
      .error (.badContentType req.URL contentType) := by
    intro bodyRead
    simp [readBody, hidx]
  refine ⟨hrb, fun status h1 h2 bodyRead expiresHeader => ?_⟩
  simp only [finalize, hrb bodyRead]
  rw [if_neg (by omega)]

/-- Witness for C5: a 200 response with `application/octet-stream` is
rejected with the body unread. -/
theorem bad_content_type_rejected_witness :
    readBody ⟨"http://x.com/ads.txt", "x.com"⟩ "application/octet-stream"
      (.ok [1, 2]) =
      .error (.badContentType "http://x.com/ads.txt"
        "application/octet-stream") ∧
    finalize netX ⟨"http://x.com/ads.txt", "x.com"⟩ 200
      "application/octet-stream" (.ok [1, 2]) "" =
      .error (.badContentType "http://x.com/ads.txt"
        "application/octet-stream") :=
  ⟨(bad_content_type_rejected netX ⟨"http://x.com/ads.txt", "x.com"⟩
      "application/octet-stream" (by decide)).1 (.ok [1, 2]),
   (bad_content_type_rejected netX ⟨"http://x.com/ads.txt", "x.com"⟩
      "application/octet-stream" (by decide)).2 200 (by decide) (by decide)
      (.ok [1, 2]) ""⟩

/-- C6: when the `Expires` header is absent or unparsable as an HTTP date,
the fetch still succeeds: on a 2xx status with a `text/plain` Content-Type
and a readable body, `finalize` returns the `Response` with the body
populated and only `expires` left unset — the header-parse failure never
surfaces as an error. -/
theorem missing_expires_not_fatal (net : Net) (req : Request) (status : Nat)
    (contentType : String) (body : List UInt8) (expiresHeader : String)
    (h1 : 200 ≤ status) (h2 : status < 300)
    (hct : "text/plain".data.isPrefixOf contentType.data = true)
    (hexp : expiresHeader = "" ∨ ∃ e, net.parseTime expiresHeader = .error e) :
    finalize net req status contentType (.ok body) expiresHeader =
      .ok { finalURL := req.URL, statusCode := status,
            contentType := contentType, body := body, expires := none } := by
  have hidx : goIndex contentType "text/plain" = 0 :=
    (goIndex_eq_zero_iff _ _).mpr hct
  have hrb : readBody req contentType (.ok body) = .ok body := by
    simp [readBody, hidx]
  simp only [finalize, hrb]
  rw [if_neg (by omega)]
  rcases hexp with h | ⟨e, h⟩
  · simp [parseExpires, h]
  · by_cases hlen : expiresHeader.length = 0
    · simp [parseExpires, hlen]
    · simp [parseExpires, hlen, h]

/-- Witness for C6: a 200 `text/plain` response with no `Expires` header
yields a `Response` with the body populated and `expires` unset. -/
theorem missing_expires_not_fatal_witness :
    finalize netX ⟨"http://x.com/ads.txt", "x.com"⟩ 200
      "text/plain; charset=utf-8" (.ok [103]) "" =
      .ok { finalURL := "http://x.com/ads.txt", statusCode := 200,
            contentType := "text/plain; charset=utf-8", body := [103],
            expires := none } :=
  missing_expires_not_fatal netX ⟨"http://x.com/ads.txt", "x.com"⟩ 200
    "text/plain; charset=utf-8" [103] "" (by decide) (by decide) (by decide)
    (Or.inl rfl)

end AdsTxt
